import Mathlib

/-!
# cassandra-query-builder: statement assembly, validation gate, dependency fan-out

A shallow embedding of `builder.go` (package `cassandraQB`) and `errors.go`,
and of `AddId` from `connection.go`.

Modelling conventions.

* A Go `map[string]interface{}` is an association list `GoMap V`.  The values
  are never inspected by the builder, so the value type `V` is a parameter.
  The order of the list stands for the order in which the runtime enumerates
  the map in a `range` loop; a map handed in by a caller has pairwise distinct
  keys (`GoMap.WellFormed`).
* A Go `map[string]struct{}` (a set of column names) is the list of its keys in
  enumeration order.
* `error` results are `Option Error`, `none` being `nil`.
* A method that appends to `*gocql.Batch` returns the batch it leaves behind.
* A function that writes through a slice argument returns the slice contents
  it leaves behind next to its result.
* A call that may panic (a nil dereference, a failed type assertion) has a
  `Run` result; the operations of the driver and of the identifier generator
  are parameters.
-/

namespace CassandraQB

/-! ## Data model -/

/-- Go `map[string]interface{}`: key/value pairs in enumeration order. -/
abbrev GoMap (V : Type) := List (String × V)

namespace GoMap

variable {V : Type}

/-- Two-valued index expression `value, isset := m[k]`. -/
def get (m : GoMap V) (k : String) : Option V :=
  match m with
  | [] => none
  | (k', v) :: rest => if k' = k then some v else get rest k

/-- Assignment `m[k] = v`: overwrite the entry of `k`, or add one. -/
def set (m : GoMap V) (k : String) (v : V) : GoMap V :=
  match m with
  | [] => [(k, v)]
  | (k', v') :: rest => if k' = k then (k, v) :: rest else (k', v') :: set rest k v

/-- Keys in enumeration order. -/
def keys (m : GoMap V) : List String := m.map Prod.fst

/-- Builtin `len(m)`. -/
def len (m : GoMap V) : Int := (m.length : Int)

/-- A Go map holds each key once. -/
def WellFormed (m : GoMap V) : Prop := m.keys.Nodup

instance (m : GoMap V) : Decidable m.WellFormed := by
  unfold WellFormed; infer_instance

end GoMap

/-- The two package-level error values of `errors.go`. -/
inductive Error where
  | ErrorEmptyValidData
  | ErrorPrimaryKeyMissing
  deriving DecidableEq, Repr

open Error

/-- Text passed to `errors.New` for each error value. -/
def Error.message : Error → String
  | ErrorEmptyValidData => "no valid data supplied"
  | ErrorPrimaryKeyMissing => "primary key field missing"

/-- The fields of `gocql.BatchEntry` the builder sets. -/
structure BatchEntry (V : Type) where
  Stmt : String
  Args : List V
  Idempotent : Bool
  deriving DecidableEq, Repr

/-- The field of `gocql.Batch` the builder touches. -/
structure Batch (V : Type) where
  Entries : List (BatchEntry V)
  deriving DecidableEq, Repr

/-- Handle of a driver session (`*gocql.Session` when not nil). -/
structure Session where
  handle : Nat
  deriving DecidableEq, Repr

/-- Type `TableDependency`: a predicate over a record and the batch.  Only its
boolean result is observed by `AddDependencies`. -/
abbrev TableDependency (V : Type) := GoMap V → Batch V → Bool

/-- Type `TableDependencies`. -/
abbrev TableDependencies (V : Type) := List (TableDependency V)

/-- Struct `TableMetadata`. -/
structure TableMetadata (V : Type) where
  Table : String
  Columns : List String
  Pk : List String
  Ck : List String
  Keyspace : String
  DependsOn : TableDependencies V
  Connection : Option Session

/-! ## Operations -/

variable {V : Type}

/-- Loop of `FilterData`: visit the remaining columns, copying the entries of
`data` that are set. -/
def FilterData.loop (data : GoMap V) : List String → GoMap V → GoMap V
  | [], values => values
  | column :: rest, values =>
    match data.get column with
    | some value => FilterData.loop data rest (values.set column value)
    | none => FilterData.loop data rest values

/-- Function `FilterData`. -/
def FilterData (data : GoMap V) (metaData : TableMetadata V) : GoMap V :=
  FilterData.loop data metaData.Columns []

/-- Go `strings.Join(elems, sep)`. -/
def stringsJoin (elems : List String) (sep : String) : String :=
  match elems with
  | [] => ""
  | e :: rest => rest.foldl (fun acc s => acc ++ sep ++ s) e

/-- Loop of `GenerateEmptyInputs`: `for i := 0; i < count; i++`, with `fuel`
bounding the remaining iterations. -/
def GenerateEmptyInputs.loop (count : Int) : Nat → Int → List String → List String
  | 0, _, inputs => inputs
  | fuel + 1, i, inputs =>
    if i < count then GenerateEmptyInputs.loop count fuel (i + 1) (inputs ++ ["?"])
    else inputs

/-- Function `GenerateEmptyInputs`. -/
def GenerateEmptyInputs (count : Int) : String :=
  stringsJoin (GenerateEmptyInputs.loop count count.toNat 0 []) ","

/-- Loop of `BindArgs` over the entries in enumeration order. -/
def BindArgs.loop : GoMap V → List V → List String → List V × List String
  | [], Args, fields => (Args, fields)
  | (field, value) :: rest, Args, fields =>
    BindArgs.loop rest (Args ++ [value]) (fields ++ [field])

/-- Function `BindArgs`. -/
def BindArgs (data : GoMap V) : List V × List String :=
  BindArgs.loop data [] []

/-- Function `MergeArgs` (variadic): append the elements of every argument. -/
def MergeArgs (args : List (List V)) : List V :=
  args.foldl (fun result arg => arg.foldl (fun r element => r ++ [element]) result) []

/-- Function `generateEmptyEquality`: rewrites every element of the slice in
place and returns the same slice. -/
def generateEmptyEquality (fields : List String) : List String :=
  fields.map (fun value => value ++ " = ?")

/-- Function `GenerateWhereConditions`: the returned text, and the contents of
the caller's slice afterwards. -/
def GenerateWhereConditions (fields : List String) : String × List String :=
  let fields := generateEmptyEquality fields
  (stringsJoin fields " AND ", fields)

/-- Loop of `CheckPK` over the primary-key columns still to visit. -/
def CheckPK.loop (data : GoMap V) : List String → Bool
  | [] => true
  | field :: rest =>
    match data.get field with
    | none => false
    | some _ => CheckPK.loop data rest

/-- Function `CheckPK`. -/
def CheckPK (metaData : TableMetadata V) (data : GoMap V) : Bool :=
  CheckPK.loop data metaData.Pk

/-- Function `CheckData`.  The parameter is a pointer to the caller's map; the
result pairs the returned error with the map the caller's variable holds when
the call is over.  The closing assignment `values = &data` stores into the
callee's own pointer variable, so the caller's variable keeps its map. -/
def CheckData (values : GoMap V) (metaData : TableMetadata V) :
    Option Error × GoMap V :=
  let data := FilterData values metaData
  if data.len = 0 then (some ErrorEmptyValidData, values)
  else if CheckPK metaData data = false then (some ErrorPrimaryKeyMissing, values)
  else (none, values)

/-- Method `NewRecord`: the returned error and the batch afterwards. -/
def NewRecord (metaData : TableMetadata V) (values : GoMap V) (batch : Batch V) :
    Option Error × Batch V :=
  match CheckData values metaData with
  | (some err, _) => (some err, batch)
  | (none, values) =>
    let (Args, fields) := BindArgs values
    (none, ⟨batch.Entries ++ [⟨"INSERT INTO " ++ metaData.Table ++ " (" ++
        stringsJoin fields "," ++ ") VALUES (" ++ GenerateEmptyInputs values.len ++ ")",
      Args, false⟩]⟩)

/-- Method `UpdateRecord`: the returned error and the batch afterwards. -/
def UpdateRecord (metaData : TableMetadata V) (conditions values : GoMap V)
    (batch : Batch V) : Option Error × Batch V :=
  match CheckData conditions metaData with
  | (some err, _) => (some err, batch)
  | (none, conditions) =>
    let (Args, fields) := BindArgs values
    let (whereArgs, whereFields) := BindArgs conditions
    (none, ⟨batch.Entries ++ [⟨"UPDATE " ++ metaData.Table ++ " SET " ++
        stringsJoin (generateEmptyEquality fields) "," ++ " WHERE " ++
        (GenerateWhereConditions whereFields).1,
      MergeArgs [Args, whereArgs], false⟩]⟩)

/-- Method `DeleteRecord`: the returned error and the batch afterwards.  The
entry literal leaves `Idempotent` at its zero value. -/
def DeleteRecord (metaData : TableMetadata V) (conditions : GoMap V)
    (batch : Batch V) : Option Error × Batch V :=
  match CheckData conditions metaData with
  | (some err, _) => (some err, batch)
  | (none, conditions) =>
    let (args, fields) := BindArgs conditions
    (none, ⟨batch.Entries ++ [⟨"DELETE FROM " ++ metaData.Table ++ " WHERE " ++
        (GenerateWhereConditions fields).1, args, false⟩]⟩)

/-! ## Dependency fan-out -/

/-- Values sent on the channel, in the order they are received: `order` lists
the positions of the dependencies in the order their goroutines complete the
send `channel <- dependency(values, statement)` of `addDependency`. -/
def addDependency (dependencies : TableDependencies V) (values : GoMap V)
    (statement : Batch V) (order : List Nat) : List Bool :=
  order.filterMap (fun i => dependencies[i]?.map (fun dependency => dependency values statement))

/-- Receive loop `for isSucceed := range channel` of `AddDependencies`.  The
list holds the values still to arrive.  The channel is never closed, so with
nothing left to arrive the receive blocks for ever: `none`. -/
def AddDependencies.recv : List Bool → Bool → Int → Option Bool
  | [], _, _ => none
  | isSucceed :: rest, isSuccessful, taskNum =>
    let isSuccessful := isSuccessful && isSucceed
    let taskNum := taskNum - 1
    if taskNum = 0 then some isSuccessful
    else AddDependencies.recv rest isSuccessful taskNum

/-- Launch loop of `AddDependencies`: `taskNum++` once per dependency. -/
def AddDependencies.launch : TableDependencies V → Int → Int
  | [], taskNum => taskNum
  | _ :: rest, taskNum => AddDependencies.launch rest (taskNum + 1)

/-- Function `AddDependencies`, for the completion order `order`.  The result
is `none` when the function never returns. -/
def AddDependencies (dependencies : TableDependencies V) (values : GoMap V)
    (statement : Batch V) (order : List Nat) : Option Bool :=
  let isSuccessful := true
  let taskNum := AddDependencies.launch dependencies 0
  AddDependencies.recv (addDependency dependencies values statement order) isSuccessful taskNum

/-! ## Read path -/

/-- Outcome of a call that may panic instead of returning. -/
inductive Run (α : Type) where
  | returns (a : α)
  | panics
  deriving DecidableEq, Repr

/-- The driver operations the read path calls, over the driver's query type `Q`
(`*gocql.Query` when not nil).  They belong to the driver, not to this package,
and are left as parameters. -/
structure Driver (V Q : Type) where
  /-- Method `(*gocql.Session).Query` with a statement and no values. -/
  Query : Session → String → Q
  /-- Method `(*gocql.Query).Bind` with one value. -/
  Bind : Q → V → Q
  /-- Method `(*gocql.Query).MapScan`: the map afterwards and the driver's error. -/
  MapScan : Q → GoMap V → GoMap V × Option String

/-- Values of type `error` on the read path: one of the package's own two error
values, or an error of the driver passed through. -/
inductive ReadError where
  | check (err : Error)
  | driver (msg : String)
  deriving DecidableEq, Repr

/-- Function `bindValues`. -/
def bindValues {Q : Type} (driver : Driver V Q) (statement : Q) (args : List V) : Q :=
  args.foldl (fun statement value => driver.Bind statement value) statement

/-- Method `GetSelectStatement`: the named results `(statement, err)`, `none`
being `nil`.  Calling `Query` on a nil session dereferences it and panics. -/
def GetSelectStatement {Q : Type} (driver : Driver V Q) (metaData : TableMetadata V)
    (conditions : GoMap V) (selectedFields : List String) :
    Run (Option Q × Option Error) :=
  match CheckData conditions metaData with
  | (some err, _) => Run.returns (none, some err)
  | (none, conditions) =>
    let (Args, fields) := BindArgs conditions
    match metaData.Connection with
    | none => Run.panics
    | some session =>
      Run.returns (some (bindValues driver
        (driver.Query session ("SELECT " ++ stringsJoin selectedFields "," ++ " FROM " ++
          metaData.Table ++ " WHERE " ++ (GenerateWhereConditions fields).1)) Args), none)

/-- Method `GetRecord`: the named results `(data, err)`.  The map is `none` when
nil; `data = make(...)` makes it an empty map that is not nil.  `MapScan` on a
nil statement dereferences it and panics. -/
def GetRecord {Q : Type} (driver : Driver V Q) (metaData : TableMetadata V)
    (conditions : GoMap V) (selectedFields : List String) :
    Run (Option (GoMap V) × Option ReadError) :=
  let data : GoMap V := []
  match GetSelectStatement driver metaData conditions selectedFields with
  | Run.panics => Run.panics
  | Run.returns (_, some err) => Run.returns (some data, some (ReadError.check err))
  | Run.returns (none, none) => Run.panics
  | Run.returns (some statement, none) =>
    let (data, err) := driver.MapScan statement data
    Run.returns (some data, err.map ReadError.driver)

/-! ## `CheckData` on explicit memory -/

/-- The map variables the pointer parameter of `CheckData` can point to. -/
inductive MapVar where
  /-- Variable `values` of the calling method, whose address is passed. -/
  | callerValues
  /-- Local variable `data` of `CheckData`. -/
  | data
  deriving DecidableEq, Repr

/-- Memory during a call `CheckData(&values, metaData)`: the map objects on the
heap, addressed by position; the address held by the caller's variable `values`;
the address held by the local `data` once it is declared; and the variable the
pointer parameter `values` points to. -/
structure CheckDataMemory (V : Type) where
  heap : List (GoMap V)
  callerValues : Nat
  data : Option Nat
  values : MapVar

/-- The map a map variable refers to (an undeclared variable or a dangling
address reads as the empty map). -/
def CheckDataMemory.load (m : CheckDataMemory V) : MapVar → GoMap V
  | MapVar.callerValues => m.heap.getD m.callerValues []
  | MapVar.data =>
    match m.data with
    | some a => m.heap.getD a []
    | none => []

/-- Memory on entry to `CheckData(&values, metaData)` when the caller's variable
refers to the map `values` and `heap` holds the other map objects. -/
def CheckDataMemory.call (heap : List (GoMap V)) (values : GoMap V) : CheckDataMemory V :=
  ⟨heap ++ [values], heap.length, none, MapVar.callerValues⟩

/-- Function `CheckData`, statement by statement on the memory: `FilterData`
reads the map `*values` and returns a map object it made itself, which `data`
then refers to; the closing `values = &data` stores into the pointer parameter. -/
def CheckData.exec (metaData : TableMetadata V) (m : CheckDataMemory V) :
    Option Error × CheckDataMemory V :=
  let m₁ : CheckDataMemory V :=
    ⟨m.heap ++ [FilterData (m.load m.values) metaData], m.callerValues,
      some m.heap.length, m.values⟩
  if (m₁.load MapVar.data).len = 0 then (some ErrorEmptyValidData, m₁)
  else if CheckPK metaData (m₁.load MapVar.data) = false then
    (some ErrorPrimaryKeyMissing, m₁)
  else (none, ⟨m₁.heap, m₁.callerValues, m₁.data, MapVar.data⟩)

/-! ## `generateEmptyEquality` on the backing array -/

/-- Loop `for index, value := range fields` of `generateEmptyEquality` on the
backing array of the slice: each turn stores `value + " = ?"` at `index`. -/
def generateEmptyEquality.loop : Nat → Nat → List String → List String
  | 0, _, fields => fields
  | fuel + 1, index, fields =>
    match fields[index]? with
    | none => fields
    | some value =>
      generateEmptyEquality.loop fuel (index + 1) (fields.set index (value ++ " = ?"))

/-- Function `generateEmptyEquality` as the loop it is written as. -/
def generateEmptyEquality.inPlace (fields : List String) : List String :=
  generateEmptyEquality.loop fields.length 0 fields

/-! ## Statement text in the words of the specification -/

/-- Where clause as the specification words it: the fields in their order, each
followed by the equality placeholder, joined by `AND`. -/
def whereConditionsSpec : List String → String
  | [] => ""
  | [field] => field ++ " = ?"
  | field :: rest => field ++ " = ?" ++ " AND " ++ whereConditionsSpec rest

/-- Placeholder list as the specification words it: `count` question marks
separated by commas. -/
def emptyInputsSpec : Nat → List Char
  | 0 => []
  | 1 => ['?']
  | count + 1 => '?' :: ',' :: emptyInputsSpec count

/-! ## `AddId` (file `connection.go`) -/

/-- Dynamic value of the parameter `idName interface{}`: nil, a string, or a
value of another type, on which the assertion `idName.(string)` panics. -/
inductive IdName where
  | nil
  | str (name : String)
  | other
  deriving DecidableEq, Repr

/-- What the two methods of `uuid_generator.Generator` return in this call; the
identifiers are taken as values of the record's value type.  The generator
belongs to another package and is left as a parameter. -/
structure Generator (V : Type) where
  /-- Results `(id, err)` of `GenerateV4()`. -/
  GenerateV4 : V × Option String
  /-- Result of `GenerateV5(name)`. -/
  GenerateV5 : String → V

/-- Value of the parameter `values *map[string]interface{}` of `AddId`: the nil
pointer, or a pointer to a map variable that holds the nil map or a map. -/
inductive RecordPtr (V : Type) where
  | nilPointer
  | nilMap
  | map (record : GoMap V)
  deriving DecidableEq, Repr

/-- Lines 74-78 of `AddId`: the read `_, isset := (*values)["id"]` and, when the
key is not set, the assignment `(*values)["id"] = id`.  The read dereferences the
pointer and panics on the nil pointer; on the nil map the read finds the key not
set and the assignment panics. -/
def AddId.store (values : RecordPtr V) (id : V) : Run (Option String × RecordPtr V) :=
  match values with
  | RecordPtr.nilPointer => Run.panics
  | RecordPtr.nilMap => Run.panics
  | RecordPtr.map record =>
    match record.get "id" with
    | some _ => Run.returns (none, RecordPtr.map record)
    | none => Run.returns (none, RecordPtr.map (record.set "id" id))

/-- Function `AddId`: the returned error and what `values` points to afterwards. -/
def AddId (values : RecordPtr V) (idName : IdName) (generator : Generator V) :
    Run (Option String × RecordPtr V) :=
  match idName with
  | IdName.nil =>
    match generator.GenerateV4 with
    | (_, some err) => Run.returns (some err, values)
    | (id, none) => AddId.store values id
  | IdName.str name => AddId.store values (generator.GenerateV5 name)
  | IdName.other => Run.panics

/-! ## Sample inputs -/

/-- Sample table `t`: declared columns `id` and `name`, primary key `id`. -/
def sampleTable : TableMetadata Nat :=
  ⟨"t", ["id", "name"], ["id"], [], "ks", [], none⟩

/-- Sample driver: a query is its text with the values bound to it; `Bind`
replaces the bound values; `MapScan` reads one row with `id = 1`. -/
def sampleDriver : Driver Nat (String × List Nat) :=
  ⟨fun _ stmt => (stmt, []), fun q value => (q.1, [value]),
    fun _ data => (data.set "id" 1, none)⟩

/-- Sample table `t` with a session. -/
def sampleTableConnected : TableMetadata Nat :=
  ⟨"t", ["id", "name"], ["id"], [], "ks", [], some ⟨0⟩⟩

/-- Sample generator: `GenerateV4` succeeds with 4, `GenerateV5` gives the length
of the name. -/
def sampleGenerator : Generator Nat :=
  ⟨(4, none), fun name => name.length⟩

/-- Sample generator whose `GenerateV4` fails. -/
def sampleGeneratorFailing : Generator Nat :=
  ⟨(0, some "no entropy"), fun name => name.length⟩

/-! ## Lemmas on maps -/

theorem GoMap.mem_keys_iff (m : GoMap V) (k : String) :
    k ∈ m.keys ↔ m.get k ≠ none := by
  induction m with
  | nil => simp [GoMap.keys, GoMap.get]
  | cons p rest ih =>
    obtain ⟨k', v⟩ := p
    by_cases h : k' = k
    · simp [GoMap.keys, GoMap.get, h]
    · have ih' : k ∈ List.map Prod.fst rest ↔ GoMap.get rest k ≠ none := ih
      simp [GoMap.keys, GoMap.get, h, ih', Ne.symm h]

theorem GoMap.get_set (m : GoMap V) (k : String) (v : V) (k' : String) :
    (m.set k v).get k' = if k = k' then some v else m.get k' := by
  induction m with
  | nil => simp [GoMap.set, GoMap.get]
  | cons p rest ih =>
    obtain ⟨k0, v0⟩ := p
    by_cases h : k0 = k
    · subst h
      by_cases h' : k0 = k' <;> simp [GoMap.set, GoMap.get, h']
    · by_cases h' : k0 = k'
      · subst h'
        simp [GoMap.set, GoMap.get, h, Ne.symm h]
      · simp [GoMap.set, GoMap.get, h, h', ih]

theorem GoMap.keys_set (m : GoMap V) (k : String) (v : V) :
    (m.set k v).keys = if k ∈ m.keys then m.keys else m.keys ++ [k] := by
  induction m with
  | nil => simp [GoMap.set, GoMap.keys]
  | cons p rest ih =>
    obtain ⟨k0, v0⟩ := p
    have ih' : List.map Prod.fst (GoMap.set rest k v)
        = if k ∈ List.map Prod.fst rest then List.map Prod.fst rest
          else List.map Prod.fst rest ++ [k] := ih
    by_cases h : k0 = k
    · subst h
      simp [GoMap.set, GoMap.keys]
    · simp only [GoMap.set, GoMap.keys, h, if_false, List.map_cons, List.mem_cons,
        Ne.symm h, false_or, ih']
      split <;> simp

theorem GoMap.wellFormed_set (m : GoMap V) (k : String) (v : V) (h : m.WellFormed) :
    (m.set k v).WellFormed := by
  unfold GoMap.WellFormed at *
  rw [GoMap.keys_set]
  split
  · exact h
  · rename_i hk
    exact List.Nodup.append h (List.nodup_singleton k) (by simpa using hk)

theorem FilterData_loop_get (data : GoMap V) (columns : List String) (values : GoMap V)
    (k : String) :
    (FilterData.loop data columns values).get k
      = if k ∈ columns ∧ (data.get k).isSome then data.get k else values.get k := by
  induction columns generalizing values with
  | nil => simp [FilterData.loop]
  | cons c rest ih =>
    unfold FilterData.loop
    cases hc : data.get c with
    | none =>
      simp only [ih]
      by_cases hk : c = k
      · subst hk; simp [hc]
      · simp [Ne.symm hk]
    | some value =>
      simp only [ih, GoMap.get_set]
      by_cases hk : c = k
      · subst hk; simp [hc]
      · simp [hk, Ne.symm hk]

theorem FilterData_loop_wellFormed (data : GoMap V) (columns : List String)
    (values : GoMap V) (h : values.WellFormed) :
    (FilterData.loop data columns values).WellFormed := by
  induction columns generalizing values with
  | nil => simpa [FilterData.loop] using h
  | cons c rest ih =>
    unfold FilterData.loop
    cases hc : data.get c with
    | none => exact ih values h
    | some value => exact ih _ (GoMap.wellFormed_set values c value h)

theorem FilterData_get (data : GoMap V) (metaData : TableMetadata V) (k : String) :
    (FilterData data metaData).get k
      = if k ∈ metaData.Columns then data.get k else none := by
  unfold FilterData
  rw [FilterData_loop_get]
  by_cases h : k ∈ metaData.Columns
  · cases h' : data.get k <;> simp [h, GoMap.get]
  · simp [h, GoMap.get]

theorem GoMap.keys_eq_nil_iff (m : GoMap V) : m.keys = [] ↔ m = [] := by
  cases m <;> simp [GoMap.keys]

theorem GoMap.len_eq_zero_iff (m : GoMap V) : m.len = 0 ↔ m = [] := by
  cases m with
  | nil => simp [GoMap.len]
  | cons p rest =>
    simp only [GoMap.len, List.length_cons, reduceCtorEq, iff_false]
    omega

theorem FilterData_wellFormed (data : GoMap V) (metaData : TableMetadata V) :
    (FilterData data metaData).WellFormed :=
  FilterData_loop_wellFormed data metaData.Columns [] List.nodup_nil

theorem FilterData_mem_keys (data : GoMap V) (metaData : TableMetadata V) (k : String) :
    k ∈ (FilterData data metaData).keys ↔ k ∈ metaData.Columns ∧ k ∈ data.keys := by
  rw [GoMap.mem_keys_iff, GoMap.mem_keys_iff, FilterData_get]
  by_cases h : k ∈ metaData.Columns <;> simp [h]

theorem BindArgs_loop_eq (data : GoMap V) (Args : List V) (fields : List String) :
    BindArgs.loop data Args fields
      = (Args ++ data.map Prod.snd, fields ++ data.map Prod.fst) := by
  induction data generalizing Args fields with
  | nil => simp [BindArgs.loop]
  | cons p rest ih =>
    obtain ⟨field, value⟩ := p
    simp [BindArgs.loop, ih]

theorem BindArgs_eq (data : GoMap V) :
    BindArgs data = (data.map Prod.snd, data.keys) := by
  simp [BindArgs, BindArgs_loop_eq, GoMap.keys]

theorem CheckPK_loop_eq_true_iff (data : GoMap V) (pk : List String) :
    CheckPK.loop data pk = true ↔ ∀ k ∈ pk, k ∈ data.keys := by
  induction pk with
  | nil => simp [CheckPK.loop]
  | cons field rest ih =>
    unfold CheckPK.loop
    cases h : data.get field with
    | none =>
      have : field ∉ data.keys := by rw [GoMap.mem_keys_iff]; simp [h]
      simp [this]
    | some v =>
      have : field ∈ data.keys := by rw [GoMap.mem_keys_iff]; simp [h]
      simp [this, ih]

theorem CheckData_snd (values : GoMap V) (metaData : TableMetadata V) :
    (CheckData values metaData).2 = values := by
  unfold CheckData
  simp only []
  split
  · rfl
  · split <;> rfl

/-- The error of `CheckData`, read off the keys of the filtered record. -/
theorem CheckData_fst (values : GoMap V) (metaData : TableMetadata V) :
    (CheckData values metaData).1
      = if (FilterData values metaData).keys = [] then some ErrorEmptyValidData
        else if ∀ k ∈ metaData.Pk, k ∈ (FilterData values metaData).keys then none
        else some ErrorPrimaryKeyMissing := by
  have hlen := GoMap.len_eq_zero_iff (FilterData values metaData)
  have hkeys := GoMap.keys_eq_nil_iff (FilterData values metaData)
  by_cases h : FilterData values metaData = []
  · simp [CheckData, hlen.2 h, hkeys.2 h]
  · have h1 : ¬ (FilterData values metaData).len = 0 := fun hh => h (hlen.1 hh)
    have h2 : ¬ (FilterData values metaData).keys = [] := fun hh => h (hkeys.1 hh)
    by_cases h' : CheckPK metaData (FilterData values metaData) = true
    · have := (CheckPK_loop_eq_true_iff _ _).1 h'
      simp only [CheckData, h1, h2, h', if_false, if_pos this]
      simp
    · have h3 : ¬ ∀ k ∈ metaData.Pk, k ∈ (FilterData values metaData).keys :=
        fun hh => h' ((CheckPK_loop_eq_true_iff _ _).2 hh)
      simp only [Bool.not_eq_true] at h'
      simp [CheckData, h1, h2, h', h3]

theorem MergeArgs_append_each (result arg : List V) :
    arg.foldl (fun r element => r ++ [element]) result = result ++ arg := by
  induction arg generalizing result with
  | nil => simp
  | cons a rest ih => simp [ih]

theorem MergeArgs_pair (a b : List V) : MergeArgs [a, b] = a ++ b := by
  simp [MergeArgs, MergeArgs_append_each]

/-! ## The three mutating methods in closed form -/

theorem NewRecord_eq (metaData : TableMetadata V) (values : GoMap V) (batch : Batch V) :
    NewRecord metaData values batch
      = match (CheckData values metaData).1 with
        | some err => (some err, batch)
        | none => (none, ⟨batch.Entries ++ [⟨"INSERT INTO " ++ metaData.Table ++ " (" ++
            stringsJoin values.keys "," ++ ") VALUES (" ++ GenerateEmptyInputs values.len
            ++ ")", values.map Prod.snd, false⟩]⟩) := by
  have h2 := CheckData_snd values metaData
  rcases h : CheckData values metaData with ⟨e, v'⟩
  rw [h] at h2
  simp only at h2
  subst h2
  cases e <;> simp [NewRecord, h, BindArgs_eq]

theorem UpdateRecord_eq (metaData : TableMetadata V) (conditions values : GoMap V)
    (batch : Batch V) :
    UpdateRecord metaData conditions values batch
      = match (CheckData conditions metaData).1 with
        | some err => (some err, batch)
        | none => (none, ⟨batch.Entries ++ [⟨"UPDATE " ++ metaData.Table ++ " SET " ++
            stringsJoin (generateEmptyEquality values.keys) "," ++ " WHERE " ++
            stringsJoin (generateEmptyEquality conditions.keys) " AND ",
            values.map Prod.snd ++ conditions.map Prod.snd, false⟩]⟩) := by
  have h2 := CheckData_snd conditions metaData
  rcases h : CheckData conditions metaData with ⟨e, v'⟩
  rw [h] at h2
  simp only at h2
  subst h2
  cases e <;> simp [UpdateRecord, h, BindArgs_eq, GenerateWhereConditions, MergeArgs_pair]

theorem DeleteRecord_eq (metaData : TableMetadata V) (conditions : GoMap V)
    (batch : Batch V) :
    DeleteRecord metaData conditions batch
      = match (CheckData conditions metaData).1 with
        | some err => (some err, batch)
        | none => (none, ⟨batch.Entries ++ [⟨"DELETE FROM " ++ metaData.Table ++ " WHERE " ++
            stringsJoin (generateEmptyEquality conditions.keys) " AND ",
            conditions.map Prod.snd, false⟩]⟩) := by
  have h2 := CheckData_snd conditions metaData
  rcases h : CheckData conditions metaData with ⟨e, v'⟩
  rw [h] at h2
  simp only at h2
  subst h2
  cases e <;> simp [DeleteRecord, h, BindArgs_eq, GenerateWhereConditions]

theorem NewRecord_fst (metaData : TableMetadata V) (values : GoMap V) (batch : Batch V) :
    (NewRecord metaData values batch).1 = (CheckData values metaData).1 := by
  rw [NewRecord_eq]; cases (CheckData values metaData).1 <;> rfl

theorem UpdateRecord_fst (metaData : TableMetadata V) (conditions values : GoMap V)
    (batch : Batch V) :
    (UpdateRecord metaData conditions values batch).1 = (CheckData conditions metaData).1 := by
  rw [UpdateRecord_eq]; cases (CheckData conditions metaData).1 <;> rfl

theorem DeleteRecord_fst (metaData : TableMetadata V) (conditions : GoMap V)
    (batch : Batch V) :
    (DeleteRecord metaData conditions batch).1 = (CheckData conditions metaData).1 := by
  rw [DeleteRecord_eq]; cases (CheckData conditions metaData).1 <;> rfl

theorem CheckData_rejects_missing_pk (values : GoMap V) (metaData : TableMetadata V)
    (k : String) (hk : k ∈ metaData.Pk) (hmiss : k ∉ values.keys) :
    (CheckData values metaData).1 ≠ none := by
  rw [CheckData_fst]
  split
  · simp
  · have : ¬ ∀ k ∈ metaData.Pk, k ∈ (FilterData values metaData).keys := by
      intro hh
      exact hmiss ((FilterData_mem_keys values metaData k).1 (hh k hk)).2
    rw [if_neg this]
    simp

/-! ## Claims -/

/-- C1: `FilterData data metaData` is `data` restricted to the declared columns.
The result is a map (each key once); a key is in it exactly when it is a declared
column and a key of `data`; and looking a key up gives the value `data` holds for
it when the key is a declared column, and nothing otherwise. -/
theorem FilterData_restricts (data : GoMap V) (metaData : TableMetadata V) :
    (FilterData data metaData).WellFormed ∧
    ∀ k : String,
      (k ∈ (FilterData data metaData).keys ↔ k ∈ metaData.Columns ∧ k ∈ data.keys) ∧
      (FilterData data metaData).get k
        = if k ∈ metaData.Columns then data.get k else none :=
  ⟨FilterData_wellFormed data metaData,
    fun k => ⟨FilterData_mem_keys data metaData k, FilterData_get data metaData k⟩⟩

/-- C2: a record that lacks a primary-key column `k` is rejected with an error by
`NewRecord`, by `DeleteRecord` and, as the conditions of an update with any
`values`, by `UpdateRecord`. -/
theorem missing_pk_rejected (metaData : TableMetadata V) (record values : GoMap V)
    (batch : Batch V) (k : String) (hk : k ∈ metaData.Pk) (hmiss : k ∉ record.keys) :
    (NewRecord metaData record batch).1 ≠ none ∧
    (DeleteRecord metaData record batch).1 ≠ none ∧
    (UpdateRecord metaData record values batch).1 ≠ none := by
  rw [NewRecord_fst, DeleteRecord_fst, UpdateRecord_fst]
  have h := CheckData_rejects_missing_pk record metaData k hk hmiss
  exact ⟨h, h, h⟩

/-- Witness of C2: on the sample table a record holding only `name` lacks the
primary-key column `id`. -/
theorem missing_pk_rejected_witness :
    "id" ∈ sampleTable.Pk ∧ "id" ∉ GoMap.keys [("name", 3)] ∧
    (NewRecord sampleTable [("name", 3)] ⟨[]⟩).1 ≠ none ∧
    (DeleteRecord sampleTable [("name", 3)] ⟨[]⟩).1 ≠ none ∧
    (UpdateRecord sampleTable [("name", 3)] [("name", 4)] ⟨[]⟩).1 ≠ none :=
  ⟨by decide, by decide,
    missing_pk_rejected sampleTable [("name", 3)] [("name", 4)] ⟨[]⟩ "id"
      (by decide) (by decide)⟩

/-- C3: `CheckData` has three outcomes, decided by the record filtered to the
declared columns.  It returns `ErrorEmptyValidData` exactly when the filtered
record is empty; `ErrorPrimaryKeyMissing` exactly when the filtered record is not
empty and lacks some primary-key column; `nil` exactly when the filtered record is
not empty and holds every primary-key column.  One of the three always occurs. -/
theorem CheckData_outcomes (values : GoMap V) (metaData : TableMetadata V) :
    ((CheckData values metaData).1 = some ErrorEmptyValidData
        ↔ FilterData values metaData = []) ∧
    ((CheckData values metaData).1 = some ErrorPrimaryKeyMissing
        ↔ FilterData values metaData ≠ [] ∧
          ∃ k ∈ metaData.Pk, k ∉ (FilterData values metaData).keys) ∧
    ((CheckData values metaData).1 = none
        ↔ FilterData values metaData ≠ [] ∧
          ∀ k ∈ metaData.Pk, k ∈ (FilterData values metaData).keys) ∧
    ((CheckData values metaData).1 = some ErrorEmptyValidData ∨
      (CheckData values metaData).1 = some ErrorPrimaryKeyMissing ∨
      (CheckData values metaData).1 = none) := by
  rw [CheckData_fst]
  have hkeys := GoMap.keys_eq_nil_iff (FilterData values metaData)
  by_cases h : FilterData values metaData = []
  · rw [if_pos (hkeys.2 h)]
    simp [h]
  · rw [if_neg (fun hh => h (hkeys.1 hh))]
    by_cases h' : ∀ k ∈ metaData.Pk, k ∈ (FilterData values metaData).keys
    · rw [if_pos h']
      simp only [reduceCtorEq, h, ne_eq, not_false_eq_true, true_and, false_iff, not_exists,
        not_and, not_not, true_iff, or_true, and_true, false_or]
      exact ⟨fun k hk => h' k hk, h'⟩
    · rw [if_neg h']
      simp only [reduceCtorEq, h, ne_eq, not_false_eq_true, true_and, false_iff, true_iff,
        Option.some.injEq, or_false, and_true, h', or_true]
      push_neg at h'
      exact h'

/-! ## Dependency fan-out -/

theorem AddDependencies_launch_eq (dependencies : TableDependencies V) (taskNum : Int) :
    AddDependencies.launch dependencies taskNum = taskNum + dependencies.length := by
  induction dependencies generalizing taskNum with
  | nil => simp [AddDependencies.launch]
  | cons d rest ih =>
    simp only [AddDependencies.launch, ih, List.length_cons, Nat.cast_add, Nat.cast_one]
    omega

/-- With as many values arriving as tasks were launched, and at least one, the
receive loop returns the conjunction of the running flag and all of them. -/
theorem AddDependencies_recv_all (arrivals : List Bool) (isSuccessful : Bool) (taskNum : Int)
    (hlen : (arrivals.length : Int) = taskNum) (hne : arrivals ≠ []) :
    AddDependencies.recv arrivals isSuccessful taskNum
      = some (isSuccessful && arrivals.all id) := by
  induction arrivals generalizing isSuccessful taskNum with
  | nil => exact absurd rfl hne
  | cons b rest ih =>
    simp only [List.length_cons, Nat.cast_add, Nat.cast_one] at hlen
    unfold AddDependencies.recv
    simp only
    by_cases hrest : rest = []
    · subst hrest
      have : taskNum - 1 = 0 := by simp at hlen; omega
      simp [this]
    · have hpos : 0 < rest.length := List.length_pos.2 hrest
      have hnz : ¬ taskNum - 1 = 0 := by omega
      rw [if_neg hnz, ih (isSuccessful && b) (taskNum - 1) (by omega) hrest]
      simp [Bool.and_assoc]

theorem addDependency_range (dependencies : TableDependencies V) (values : GoMap V)
    (statement : Batch V) :
    addDependency dependencies values statement (List.range dependencies.length)
      = dependencies.map (fun dependency => dependency values statement) := by
  unfold addDependency
  induction dependencies with
  | nil => simp
  | cons d rest ih =>
    rw [List.length_cons, List.range_succ_eq_map, List.filterMap_cons]
    simp only [List.getElem?_cons_zero, Option.map_some', List.map_cons, List.filterMap_map]
    congr 1
    rw [← ih]
    apply List.filterMap_congr
    intro i _
    simp

theorem addDependency_perm (dependencies : TableDependencies V) (values : GoMap V)
    (statement : Batch V) (order : List Nat)
    (horder : order.Perm (List.range dependencies.length)) :
    (addDependency dependencies values statement order).Perm
      (dependencies.map (fun dependency => dependency values statement)) := by
  rw [← addDependency_range]
  exact horder.filterMap _

theorem all_id_perm (l₁ l₂ : List Bool) (h : l₁.Perm l₂) : l₁.all id = l₂.all id := by
  rw [Bool.eq_iff_iff]
  simp only [List.all_eq_true]
  exact ⟨fun H x hx => H x (h.mem_iff.2 hx), fun H x hx => H x (h.mem_iff.1 hx)⟩

theorem all_id_map {α : Type} (l : List α) (f : α → Bool) : (l.map f).all id = l.all f := by
  induction l with
  | nil => rfl
  | cons a rest ih => simp [ih]

/-- C4: for a non-empty list of dependency predicates and every order in which
their results arrive on the channel, `AddDependencies` returns, and its result is
true exactly when every predicate returned true; it is false as soon as one
predicate returned false.  The result is the same for every completion order. -/
theorem AddDependencies_all (dependencies : TableDependencies V) (values : GoMap V)
    (statement : Batch V) (order : List Nat) (hne : dependencies ≠ [])
    (horder : order.Perm (List.range dependencies.length)) :
    AddDependencies dependencies values statement order
        = some (dependencies.all (fun dependency => dependency values statement)) ∧
    (AddDependencies dependencies values statement order = some true
        ↔ ∀ dependency ∈ dependencies, dependency values statement = true) ∧
    ((∃ dependency ∈ dependencies, dependency values statement = false)
        → AddDependencies dependencies values statement order = some false) := by
  have hperm := addDependency_perm dependencies values statement order horder
  have hlen : ((addDependency dependencies values statement order).length : Int)
      = AddDependencies.launch dependencies 0 := by
    rw [AddDependencies_launch_eq, hperm.length_eq]; simp
  have hne' : addDependency dependencies values statement order ≠ [] := by
    intro h0
    rw [h0] at hperm
    have := hperm.length_eq
    simp only [List.length_nil, List.length_map] at this
    exact hne (List.length_eq_zero.1 this.symm)
  have hres : AddDependencies dependencies values statement order
      = some (dependencies.all (fun dependency => dependency values statement)) := by
    unfold AddDependencies
    simp only
    rw [AddDependencies_recv_all _ _ _ hlen hne', all_id_perm _ _ hperm, all_id_map]
    simp
  refine ⟨hres, ?_, ?_⟩
  · rw [hres]; simp
  · rintro ⟨d, hd, hfalse⟩
    rw [hres]
    simp only [Option.some.injEq, List.all_eq_false]
    exact ⟨d, hd, by simp [hfalse]⟩

/-- Witness of C4: two predicates, the second completing first. -/
theorem AddDependencies_all_witness :
    ([fun _ _ => true, fun _ _ => false] : TableDependencies Nat) ≠ [] ∧
    ([1, 0] : List Nat).Perm (List.range 2) ∧
    AddDependencies ([fun _ _ => true, fun _ _ => false] : TableDependencies Nat)
      [("id", 1)] ⟨[]⟩ [1, 0] = some false :=
  ⟨by simp, by decide,
    (AddDependencies_all ([fun _ _ => true, fun _ _ => false] : TableDependencies Nat)
      [("id", 1)] ⟨[]⟩ [1, 0] (by simp) (by decide)).1⟩

/-- C5: with the empty list of dependency predicates no task is launched and
nothing is ever sent on the channel, so the receive loop of `AddDependencies`
blocks on its first receive: the function does not return, for any order. -/
theorem AddDependencies_nil_blocks (values : GoMap V) (statement : Batch V)
    (order : List Nat) :
    AddDependencies ([] : TableDependencies V) values statement order = none := by
  have : addDependency ([] : TableDependencies V) values statement order = [] := by
    simp [addDependency]
  simp [AddDependencies, this, AddDependencies.recv]

/-- C6 (the code at the failing input): on the sample table, whose declared
columns are `id` and `name`, the record with keys `id` and `x` is accepted by
`NewRecord`, and the appended INSERT names the undeclared column `x` and binds its
value, although the filtered record holds `id` alone. -/
theorem NewRecord_binds_undeclared_key :
    "x" ∉ sampleTable.Columns ∧
    FilterData [("id", 1), ("x", 2)] sampleTable = [("id", 1)] ∧
    NewRecord sampleTable [("id", 1), ("x", 2)] ⟨[]⟩
      = (none, ⟨[⟨"INSERT INTO t (id,x) VALUES (?,?)", [1, 2], false⟩]⟩) := by
  decide

/-- C7: each of `NewRecord`, `UpdateRecord` and `DeleteRecord` either returns an
error and leaves the batch as it was, or returns `nil` and leaves the previous
entries, in their order, followed by exactly one new entry. -/
theorem batch_append_only (metaData : TableMetadata V) (record values : GoMap V)
    (batch : Batch V) :
    (((NewRecord metaData record batch).1 ≠ none ∧
        (NewRecord metaData record batch).2 = batch) ∨
      ((NewRecord metaData record batch).1 = none ∧
        ∃ entry, (NewRecord metaData record batch).2.Entries = batch.Entries ++ [entry])) ∧
    (((UpdateRecord metaData record values batch).1 ≠ none ∧
        (UpdateRecord metaData record values batch).2 = batch) ∨
      ((UpdateRecord metaData record values batch).1 = none ∧
        ∃ entry, (UpdateRecord metaData record values batch).2.Entries
          = batch.Entries ++ [entry])) ∧
    (((DeleteRecord metaData record batch).1 ≠ none ∧
        (DeleteRecord metaData record batch).2 = batch) ∨
      ((DeleteRecord metaData record batch).1 = none ∧
        ∃ entry, (DeleteRecord metaData record batch).2.Entries
          = batch.Entries ++ [entry])) := by
  rw [NewRecord_eq, UpdateRecord_eq, DeleteRecord_eq]
  cases (CheckData record metaData).1 with
  | some err => simp
  | none => simp

/-! ## Placeholders and positional binding -/

theorem GenerateEmptyInputs_loop_eq (count : Int) (fuel : Nat) (i : Int)
    (inputs : List String) :
    GenerateEmptyInputs.loop count fuel i inputs
      = inputs ++ List.replicate (min fuel (count - i).toNat) "?" := by
  induction fuel generalizing i inputs with
  | zero => simp [GenerateEmptyInputs.loop]
  | succ fuel ih =>
    unfold GenerateEmptyInputs.loop
    by_cases h : i < count
    · rw [if_pos h, ih]
      have : min (fuel + 1) (count - i).toNat = min fuel (count - (i + 1)).toNat + 1 := by
        omega
      rw [this, List.replicate_succ]
      simp
    · rw [if_neg h]
      have : (count - i).toNat = 0 := by omega
      simp [this]

theorem GenerateEmptyInputs_eq (count : Int) :
    GenerateEmptyInputs count = stringsJoin (List.replicate count.toNat "?") "," := by
  simp [GenerateEmptyInputs, GenerateEmptyInputs_loop_eq]

theorem GenerateEmptyInputs_len (data : GoMap V) :
    GenerateEmptyInputs data.len = stringsJoin (List.replicate data.length "?") "," := by
  simp [GenerateEmptyInputs_eq, GoMap.len]

theorem stringsJoin_placeholders_count_aux (n : Nat) (acc : String) :
    ((List.replicate n "?").foldl (fun acc s => acc ++ "," ++ s) acc).data.count '?'
      = acc.data.count '?' + n := by
  induction n generalizing acc with
  | zero => simp
  | succ n ih =>
    rw [List.replicate_succ, List.foldl_cons, ih]
    simp only [String.data_append, List.count_append]
    have h1 : List.count '?' [','] = 0 := by decide
    have h2 : List.count '?' ['?'] = 1 := by decide
    omega

theorem stringsJoin_placeholders_count (n : Nat) :
    (stringsJoin (List.replicate n "?") ",").data.count '?' = n := by
  cases n with
  | zero => simp [stringsJoin]
  | succ n =>
    rw [List.replicate_succ]
    simp only [stringsJoin]
    rw [stringsJoin_placeholders_count_aux]
    have h2 : List.count '?' ("?".data) = 1 := by decide
    omega

theorem GoMap.get_of_getElem? (m : GoMap V) (h : m.WellFormed) (i : Nat) (k : String)
    (hk : m.keys[i]? = some k) : (m.map Prod.snd)[i]? = m.get k := by
  induction m generalizing i with
  | nil => simp [GoMap.keys] at hk
  | cons p rest ih =>
    obtain ⟨k0, v0⟩ := p
    have hnd : k0 ∉ GoMap.keys rest ∧ GoMap.WellFormed rest := by
      simpa [GoMap.WellFormed, GoMap.keys] using h
    cases i with
    | zero =>
      simp only [GoMap.keys, List.map_cons, List.getElem?_cons_zero, Option.some.injEq] at hk
      subst hk
      simp [GoMap.get]
    | succ i =>
      have hk' : (GoMap.keys rest)[i]? = some k := by
        simpa [GoMap.keys] using hk
      have hmem : k ∈ GoMap.keys rest := List.getElem?_mem hk'
      have hne : ¬ k0 = k := fun e => hnd.1 (e ▸ hmem)
      simp only [List.map_cons, List.getElem?_cons_succ, GoMap.get, hne, if_false]
      exact ih hnd.2 i hk'

/-- C8: arguments are bound positionally.  For a record `data` (a map, whatever
the order its entries are enumerated in) `BindArgs` returns as many arguments and
as many fields as `data` has entries; the fields are pairwise distinct and are
exactly the keys set in `data`; and the argument at each position is the value
`data` holds for the field at that position.  An INSERT appended by `NewRecord`
names the fields in that order, binds `Args` in that order, and its placeholder
list is made of `len(Args)` question marks. -/
theorem BindArgs_positional (data : GoMap V) (hwf : data.WellFormed) :
    (BindArgs data).1.length = data.length ∧
    (BindArgs data).2.length = data.length ∧
    (BindArgs data).2.Nodup ∧
    (∀ k : String, k ∈ (BindArgs data).2 ↔ data.get k ≠ none) ∧
    (∀ (i : Nat) (k : String), (BindArgs data).2[i]? = some k →
        (BindArgs data).1[i]? = data.get k) ∧
    (GenerateEmptyInputs data.len).data.count '?' = (BindArgs data).1.length ∧
    ∀ (metaData : TableMetadata V) (batch : Batch V),
      (NewRecord metaData data batch).1 = none →
      (NewRecord metaData data batch).2.Entries
        = batch.Entries ++ [⟨"INSERT INTO " ++ metaData.Table ++ " (" ++
            stringsJoin (BindArgs data).2 "," ++ ") VALUES (" ++
            stringsJoin (List.replicate (BindArgs data).1.length "?") "," ++ ")",
            (BindArgs data).1, false⟩] := by
  rw [BindArgs_eq]
  refine ⟨by simp, by simp [GoMap.keys], hwf, fun k => GoMap.mem_keys_iff data k,
    fun i k hk => GoMap.get_of_getElem? data hwf i k hk, ?_, ?_⟩
  · rw [GenerateEmptyInputs_len, stringsJoin_placeholders_count]; simp
  · intro metaData batch hacc
    rw [NewRecord_fst] at hacc
    rw [NewRecord_eq, hacc, GenerateEmptyInputs_len]
    simp

/-- Witness of C8: a record with the keys `id` and `name`. -/
theorem BindArgs_positional_witness :
    GoMap.WellFormed [("id", 7), ("name", 9)] ∧
    (BindArgs [("id", 7), ("name", 9)]).2.Nodup ∧
    (NewRecord sampleTable [("id", 7), ("name", 9)] ⟨[]⟩).2.Entries
      = [⟨"INSERT INTO t (id,name) VALUES (?,?)", [7, 9], false⟩] :=
  ⟨by decide, (BindArgs_positional [("id", 7), ("name", 9)] (by decide)).2.2.1, by decide⟩

/-! ## Statement text depends on the keys alone -/

theorem GoMap.get_isSome_congr (m₁ m₂ : GoMap V) (h : m₁.keys = m₂.keys) (k : String) :
    (m₁.get k).isSome = (m₂.get k).isSome := by
  have h1 := GoMap.mem_keys_iff m₁ k
  have h2 := GoMap.mem_keys_iff m₂ k
  rw [h] at h1
  rw [Bool.eq_iff_iff]
  simp only [Option.isSome_iff_ne_none]
  exact h1.symm.trans h2

theorem FilterData_loop_keys_congr (d₁ d₂ : GoMap V) (h : d₁.keys = d₂.keys)
    (columns : List String) (a₁ a₂ : GoMap V) (ha : a₁.keys = a₂.keys) :
    (FilterData.loop d₁ columns a₁).keys = (FilterData.loop d₂ columns a₂).keys := by
  induction columns generalizing a₁ a₂ with
  | nil => simpa [FilterData.loop] using ha
  | cons c rest ih =>
    have hc := GoMap.get_isSome_congr d₁ d₂ h c
    unfold FilterData.loop
    cases h1 : d₁.get c with
    | none =>
      cases h2 : d₂.get c with
      | none => exact ih a₁ a₂ ha
      | some v₂ => simp [h1, h2] at hc
    | some v₁ =>
      cases h2 : d₂.get c with
      | none => simp [h1, h2] at hc
      | some v₂ =>
        apply ih
        rw [GoMap.keys_set, GoMap.keys_set, ha]

theorem FilterData_keys_congr (d₁ d₂ : GoMap V) (h : d₁.keys = d₂.keys)
    (metaData : TableMetadata V) :
    (FilterData d₁ metaData).keys = (FilterData d₂ metaData).keys :=
  FilterData_loop_keys_congr d₁ d₂ h metaData.Columns [] [] rfl

theorem CheckData_fst_congr (d₁ d₂ : GoMap V) (h : d₁.keys = d₂.keys)
    (metaData : TableMetadata V) :
    (CheckData d₁ metaData).1 = (CheckData d₂ metaData).1 := by
  rw [CheckData_fst, CheckData_fst, FilterData_keys_congr d₁ d₂ h]

theorem GoMap.len_congr (m₁ m₂ : GoMap V) (h : m₁.keys = m₂.keys) : m₁.len = m₂.len := by
  have := congrArg List.length h
  simp only [GoMap.keys, List.length_map] at this
  simp [GoMap.len, this]

/-- C9: statements are parameterized.  Two runs on the same table descriptor and
batch whose records have the same keys, enumerated in the same order, and any
values, end with the same error, and the statement texts in the batch afterwards
are the same: for `NewRecord`, for `DeleteRecord`, and for `UpdateRecord` (where
both the conditions and the values of the two runs agree on their keys). -/
theorem stmt_independent_of_values (metaData : TableMetadata V)
    (r₁ r₂ v₁ v₂ : GoMap V) (batch : Batch V)
    (hr : r₁.keys = r₂.keys) (hv : v₁.keys = v₂.keys) :
    ((NewRecord metaData r₁ batch).1 = (NewRecord metaData r₂ batch).1 ∧
      (NewRecord metaData r₁ batch).2.Entries.map BatchEntry.Stmt
        = (NewRecord metaData r₂ batch).2.Entries.map BatchEntry.Stmt) ∧
    ((DeleteRecord metaData r₁ batch).1 = (DeleteRecord metaData r₂ batch).1 ∧
      (DeleteRecord metaData r₁ batch).2.Entries.map BatchEntry.Stmt
        = (DeleteRecord metaData r₂ batch).2.Entries.map BatchEntry.Stmt) ∧
    ((UpdateRecord metaData r₁ v₁ batch).1 = (UpdateRecord metaData r₂ v₂ batch).1 ∧
      (UpdateRecord metaData r₁ v₁ batch).2.Entries.map BatchEntry.Stmt
        = (UpdateRecord metaData r₂ v₂ batch).2.Entries.map BatchEntry.Stmt) := by
  rw [NewRecord_eq, NewRecord_eq, DeleteRecord_eq, DeleteRecord_eq, UpdateRecord_eq,
    UpdateRecord_eq, CheckData_fst_congr r₁ r₂ hr, GoMap.len_congr r₁ r₂ hr, hr, hv]
  cases (CheckData r₂ metaData).1 with
  | some err => simp
  | none => simp

/-- Witness of C9: the same keys `id`, `name` with different values. -/
theorem stmt_independent_of_values_witness :
    GoMap.keys [("id", 1), ("name", 2)] = GoMap.keys [("id", 30), ("name", 40)] ∧
    GoMap.keys [("name", 5)] = GoMap.keys [("name", 6)] ∧
    (UpdateRecord sampleTable [("id", 1), ("name", 2)] [("name", 5)] ⟨[]⟩).2.Entries.map
        BatchEntry.Stmt
      = (UpdateRecord sampleTable [("id", 30), ("name", 40)] [("name", 6)] ⟨[]⟩).2.Entries.map
        BatchEntry.Stmt :=
  ⟨by decide, by decide,
    (stmt_independent_of_values sampleTable [("id", 1), ("name", 2)]
      [("id", 30), ("name", 40)] [("name", 5)] [("name", 6)] ⟨[]⟩
      (by decide) (by decide)).2.2.2⟩

/-- C10 (counterexample): on the sample table `UpdateRecord` with the conditions
`id = 1` and the empty map of values returns `nil` and appends an UPDATE entry,
whose SET list is empty. -/
theorem UpdateRecord_accepts_empty_values :
    FilterData ([] : GoMap Nat) sampleTable = [] ∧
    UpdateRecord sampleTable [("id", 1)] [] ⟨[]⟩
      = (none, ⟨[⟨"UPDATE t SET  WHERE id = ?", [1], false⟩]⟩) := by
  decide

/-- C10 (amended): `UpdateRecord` validates its conditions alone.  Its error is
the one `CheckData` gives for the conditions, whatever the values are: it returns
`nil` exactly when the conditions restricted to the declared columns are
non-empty and hold every primary-key column, and then it appends exactly one
entry; otherwise it appends nothing. -/
theorem UpdateRecord_gate_is_conditions (metaData : TableMetadata V)
    (conditions values : GoMap V) (batch : Batch V) :
    (UpdateRecord metaData conditions values batch).1 = (CheckData conditions metaData).1 ∧
    ((UpdateRecord metaData conditions values batch).1 = none
      ↔ FilterData conditions metaData ≠ [] ∧
        ∀ k ∈ metaData.Pk, k ∈ (FilterData conditions metaData).keys) ∧
    (((UpdateRecord metaData conditions values batch).1 = none ∧
        ∃ entry, (UpdateRecord metaData conditions values batch).2.Entries
          = batch.Entries ++ [entry]) ∨
      ((UpdateRecord metaData conditions values batch).1 ≠ none ∧
        (UpdateRecord metaData conditions values batch).2 = batch)) := by
  refine ⟨UpdateRecord_fst metaData conditions values batch, ?_, ?_⟩
  · rw [UpdateRecord_fst, CheckData_fst]
    have hkeys := GoMap.keys_eq_nil_iff (FilterData conditions metaData)
    by_cases h : FilterData conditions metaData = []
    · rw [if_pos (hkeys.2 h)]; simp [h]
    · rw [if_neg (fun hh => h (hkeys.1 hh))]
      by_cases h' : ∀ k ∈ metaData.Pk, k ∈ (FilterData conditions metaData).keys
      · rw [if_pos h']; simp [h]; exact h'
      · rw [if_neg h']; simp [h]; push_neg at h'; exact h'
  · rw [UpdateRecord_eq]
    cases (CheckData conditions metaData).1 with
    | some err => simp
    | none => simp

/-! ## Read path -/

theorem GetSelectStatement_eq {Q : Type} (driver : Driver V Q) (metaData : TableMetadata V)
    (conditions : GoMap V) (selectedFields : List String) :
    GetSelectStatement driver metaData conditions selectedFields
      = match (CheckData conditions metaData).1 with
        | some err => Run.returns (none, some err)
        | none =>
          match metaData.Connection with
          | none => Run.panics
          | some session =>
            Run.returns (some (bindValues driver
              (driver.Query session ("SELECT " ++ stringsJoin selectedFields "," ++ " FROM " ++
                metaData.Table ++ " WHERE " ++
                stringsJoin (generateEmptyEquality conditions.keys) " AND "))
              (conditions.map Prod.snd)), none) := by
  have h2 := CheckData_snd conditions metaData
  rcases h : CheckData conditions metaData with ⟨e, v'⟩
  rw [h] at h2
  simp only at h2
  subst h2
  cases e <;> simp [GetSelectStatement, h, BindArgs_eq, GenerateWhereConditions]

theorem CheckData_fst_connection (values : GoMap V) (metaData : TableMetadata V)
    (connection : Option Session) :
    (CheckData values ⟨metaData.Table, metaData.Columns, metaData.Pk, metaData.Ck,
        metaData.Keyspace, metaData.DependsOn, connection⟩).1
      = (CheckData values metaData).1 := rfl

theorem CheckData_rejects (values : GoMap V) (metaData : TableMetadata V)
    (h : FilterData values metaData = [] ∨
      ∃ k ∈ metaData.Pk, k ∉ (FilterData values metaData).keys) :
    ∃ err, (CheckData values metaData).1 = some err := by
  rw [CheckData_fst]
  rcases h with h | ⟨k, hk, hmiss⟩
  · exact ⟨ErrorEmptyValidData, by simp [h, GoMap.keys]⟩
  · split
    · exact ⟨_, rfl⟩
    · have : ¬ ∀ k ∈ metaData.Pk, k ∈ (FilterData values metaData).keys :=
        fun hh => hmiss (hh k hk)
      rw [if_neg this]
      exact ⟨_, rfl⟩

/-- C11: the read path is gated by `CheckData`.  When the conditions restricted to
the declared columns are empty or lack a primary-key column, `CheckData` gives an
error, `GetSelectStatement` returns a nil statement with that error whatever
`metaData.Connection` is (nil included, so no session is dereferenced), and
`GetRecord` returns that error with an empty map that is not nil. -/
theorem read_path_gated {Q : Type} (driver : Driver V Q) (metaData : TableMetadata V)
    (conditions : GoMap V) (selectedFields : List String)
    (h : FilterData conditions metaData = [] ∨
      ∃ k ∈ metaData.Pk, k ∉ (FilterData conditions metaData).keys) :
    ∃ err, (CheckData conditions metaData).1 = some err ∧
      GetSelectStatement driver metaData conditions selectedFields
        = Run.returns (none, some err) ∧
      (∀ connection : Option Session,
        GetSelectStatement driver ⟨metaData.Table, metaData.Columns, metaData.Pk,
          metaData.Ck, metaData.Keyspace, metaData.DependsOn, connection⟩
          conditions selectedFields = Run.returns (none, some err)) ∧
      GetRecord driver metaData conditions selectedFields
        = Run.returns (some [], some (ReadError.check err)) := by
  obtain ⟨err, herr⟩ := CheckData_rejects conditions metaData h
  have hsel : GetSelectStatement driver metaData conditions selectedFields
      = Run.returns (none, some err) := by
    rw [GetSelectStatement_eq, herr]
  refine ⟨err, herr, hsel, ?_, ?_⟩
  · intro connection
    rw [GetSelectStatement_eq, CheckData_fst_connection, herr]
  · simp [GetRecord, hsel]

/-- Witness of C11: on the sample table, which has no session, conditions that
hold `name` alone lack the primary-key column `id`. -/
theorem read_path_gated_witness :
    (FilterData [("name", 1)] sampleTable = [] ∨
      ∃ k ∈ sampleTable.Pk, k ∉ (FilterData [("name", 1)] sampleTable).keys) ∧
    sampleTable.Connection = none ∧
    ∃ err, (CheckData [("name", 1)] sampleTable).1 = some err ∧
      GetSelectStatement sampleDriver sampleTable [("name", 1)] ["name"]
        = Run.returns (none, some err) ∧
      (∀ connection : Option Session,
        GetSelectStatement sampleDriver ⟨sampleTable.Table, sampleTable.Columns,
          sampleTable.Pk, sampleTable.Ck, sampleTable.Keyspace, sampleTable.DependsOn,
          connection⟩ [("name", 1)] ["name"] = Run.returns (none, some err)) ∧
      GetRecord sampleDriver sampleTable [("name", 1)] ["name"]
        = Run.returns (some [], some (ReadError.check err)) :=
  ⟨Or.inr ⟨"id", by decide, by decide⟩, rfl,
    read_path_gated sampleDriver sampleTable [("name", 1)] ["name"]
      (Or.inr ⟨"id", by decide, by decide⟩)⟩

/-! ## Joined text -/

theorem stringsJoin_foldl_append (sep a b : String) (rest : List String) :
    rest.foldl (fun acc s => acc ++ sep ++ s) (a ++ sep ++ b)
      = a ++ sep ++ rest.foldl (fun acc s => acc ++ sep ++ s) b := by
  induction rest generalizing b with
  | nil => rfl
  | cons c rest ih =>
    simp only [List.foldl_cons]
    rw [← ih (b ++ sep ++ c)]
    simp only [String.append_assoc]

theorem stringsJoin_cons_cons (sep a b : String) (rest : List String) :
    stringsJoin (a :: b :: rest) sep = a ++ sep ++ stringsJoin (b :: rest) sep := by
  simp only [stringsJoin, List.foldl_cons]
  exact stringsJoin_foldl_append sep a b rest

theorem stringsJoin_count_aux (c : Char) (sep : String) (l : List String) (acc : String) :
    (l.foldl (fun acc s => acc ++ sep ++ s) acc).data.count c
      = acc.data.count c + (l.map (fun s => s.data.count c)).sum
        + l.length * sep.data.count c := by
  induction l generalizing acc with
  | nil => simp
  | cons s rest ih =>
    simp only [List.foldl_cons, ih, String.data_append, List.count_append, List.map_cons,
      List.sum_cons, List.length_cons]
    ring

theorem stringsJoin_count (c : Char) (sep : String) (l : List String)
    (hsep : sep.data.count c = 0) :
    (stringsJoin l sep).data.count c = (l.map (fun s => s.data.count c)).sum := by
  cases l with
  | nil => simp [stringsJoin]
  | cons s rest =>
    simp only [stringsJoin, stringsJoin_count_aux, hsep, List.map_cons, List.sum_cons]
    omega

theorem generateEmptyEquality_count (fields : List String) :
    ((generateEmptyEquality fields).map (fun s => s.data.count '?')).sum
      = fields.length + (fields.map (fun s => s.data.count '?')).sum := by
  induction fields with
  | nil => simp [generateEmptyEquality]
  | cons f rest ih =>
    have h1 : List.count '?' (" = ?".data) = 1 := by decide
    simp only [generateEmptyEquality, List.map_cons, List.sum_cons, String.data_append,
      List.count_append, List.length_cons, List.map_map] at ih ⊢
    rw [ih, h1]
    omega

theorem whereConditionsSpec_eq (fields : List String) :
    whereConditionsSpec fields = stringsJoin (generateEmptyEquality fields) " AND " := by
  induction fields with
  | nil => rfl
  | cons f rest ih =>
    cases rest with
    | nil => rfl
    | cons g rest =>
      rw [whereConditionsSpec, ih]
      · simp only [generateEmptyEquality, List.map_cons]
        rw [stringsJoin_cons_cons]
      · simp

theorem sum_count_eq_zero (c : Char) (l : List String) (h : ∀ s ∈ l, c ∉ s.data) :
    (l.map (fun s => s.data.count c)).sum = 0 := by
  induction l with
  | nil => rfl
  | cons s rest ih =>
    have hs : s.data.count c = 0 := List.count_eq_zero.2 (h s (List.mem_cons_self s rest))
    simp only [List.map_cons, List.sum_cons, hs, zero_add]
    exact ih (fun t ht => h t (List.mem_cons_of_mem s ht))

/-- C13: `GenerateWhereConditions` returns the fields in their given order, each
followed by the equality placeholder, joined by `AND`: the text the specification
words, which is the empty string for no field and has no `AND` for one field.
It holds one question mark per field next to those of the field names, so exactly
`len(fields)` of them when no field name holds a question mark. -/
theorem GenerateWhereConditions_text (fields : List String) :
    (GenerateWhereConditions fields).1 = whereConditionsSpec fields ∧
    (GenerateWhereConditions fields).1
      = stringsJoin (fields.map (fun field => field ++ " = ?")) " AND " ∧
    (GenerateWhereConditions []).1 = "" ∧
    (∀ field : String, (GenerateWhereConditions [field]).1 = field ++ " = ?") ∧
    (GenerateWhereConditions fields).1.data.count '?'
      = fields.length + (fields.map (fun field => field.data.count '?')).sum ∧
    ((∀ field ∈ fields, '?' ∉ field.data) →
      (GenerateWhereConditions fields).1.data.count '?' = fields.length) := by
  have hcount : (GenerateWhereConditions fields).1.data.count '?'
      = fields.length + (fields.map (fun field => field.data.count '?')).sum := by
    simp only [GenerateWhereConditions]
    rw [stringsJoin_count '?' " AND " _ (by decide), generateEmptyEquality_count]
  refine ⟨(whereConditionsSpec_eq fields).symm, rfl, rfl, fun _ => rfl, hcount, ?_⟩
  intro h
  rw [hcount, sum_count_eq_zero '?' fields h]
  rfl

/-- Witness of C13: three field names without a question mark. -/
theorem GenerateWhereConditions_text_witness :
    (∀ field ∈ ["id", "name", "age"], '?' ∉ field.data) ∧
    (GenerateWhereConditions ["id", "name", "age"]).1 = "id = ? AND name = ? AND age = ?" ∧
    (GenerateWhereConditions ["id", "name", "age"]).1.data.count '?' = 3 :=
  ⟨by decide, by decide,
    (GenerateWhereConditions_text ["id", "name", "age"]).2.2.2.2.2 (by decide)⟩

/-! ## The UPDATE entry -/

theorem MergeArgs_foldl (args : List (List V)) (result : List V) :
    args.foldl (fun result arg => arg.foldl (fun r element => r ++ [element]) result) result
      = result ++ args.flatten := by
  induction args generalizing result with
  | nil => simp
  | cons a rest ih =>
    simp only [List.foldl_cons, List.flatten_cons]
    rw [ih, MergeArgs_append_each, List.append_assoc]

theorem MergeArgs_eq_flatten (args : List (List V)) : MergeArgs args = args.flatten := by
  simp [MergeArgs, MergeArgs_foldl]

theorem UpdateRecord_stmt_count (table : String) (fields whereFields : List String) :
    ("UPDATE " ++ table ++ " SET " ++ stringsJoin (generateEmptyEquality fields) "," ++
        " WHERE " ++ stringsJoin (generateEmptyEquality whereFields) " AND ").data.count '?'
      = fields.length + whereFields.length + table.data.count '?'
        + (fields.map (fun s => s.data.count '?')).sum
        + (whereFields.map (fun s => s.data.count '?')).sum := by
  have h1 : List.count '?' ("UPDATE ".data) = 0 := by decide
  have h2 : List.count '?' (" SET ".data) = 0 := by decide
  have h3 : List.count '?' (" WHERE ".data) = 0 := by decide
  simp only [String.data_append, List.count_append]
  rw [stringsJoin_count '?' "," _ (by decide), stringsJoin_count '?' " AND " _ (by decide),
    generateEmptyEquality_count, generateEmptyEquality_count, h1, h2, h3]
  omega

/-- C12: an accepted `UpdateRecord` appends one entry.  Its text is `UPDATE`, the
table, `SET`, the SET fields each followed by the equality placeholder and joined
by commas, `WHERE`, and the condition fields each followed by the equality
placeholder and joined by `AND`.  Its arguments are the SET values in the order of
the SET fields followed by the condition values in the order of the condition
fields, `MergeArgs` being concatenation in argument order, so there are
`len(values) + len(conditions)` of them; and the text holds that many question
marks next to those of the table and field names. -/
theorem UpdateRecord_entry (metaData : TableMetadata V) (conditions values : GoMap V)
    (batch : Batch V)
    (hacc : (UpdateRecord metaData conditions values batch).1 = none) :
    ∃ entry : BatchEntry V,
      (UpdateRecord metaData conditions values batch).2.Entries
        = batch.Entries ++ [entry] ∧
      entry.Stmt = "UPDATE " ++ metaData.Table ++ " SET " ++
        stringsJoin ((BindArgs values).2.map (fun field => field ++ " = ?")) "," ++
        " WHERE " ++
        stringsJoin ((BindArgs conditions).2.map (fun field => field ++ " = ?")) " AND " ∧
      entry.Args = (BindArgs values).1 ++ (BindArgs conditions).1 ∧
      entry.Args = MergeArgs [(BindArgs values).1, (BindArgs conditions).1] ∧
      (∀ args : List (List V), MergeArgs args = args.flatten) ∧
      (entry.Args.length : Int) = values.len + conditions.len ∧
      entry.Stmt.data.count '?'
        = entry.Args.length + metaData.Table.data.count '?'
          + ((BindArgs values).2.map (fun field => field.data.count '?')).sum
          + ((BindArgs conditions).2.map (fun field => field.data.count '?')).sum := by
  rw [UpdateRecord_fst] at hacc
  rw [UpdateRecord_eq, hacc, BindArgs_eq, BindArgs_eq]
  refine ⟨_, rfl, rfl, rfl, (MergeArgs_pair _ _).symm, MergeArgs_eq_flatten, ?_, ?_⟩
  · simp [GoMap.len]
  · have := UpdateRecord_stmt_count metaData.Table values.keys conditions.keys
    simp only [List.length_append, List.length_map]
    rw [this]
    simp [GoMap.keys]

/-- Witness of C12: an update of `name` under the condition `id = 1`. -/
theorem UpdateRecord_entry_witness :
    (UpdateRecord sampleTable [("id", 1)] [("name", 5), ("age", 6)] ⟨[]⟩).1 = none ∧
    ∃ entry : BatchEntry Nat,
      (UpdateRecord sampleTable [("id", 1)] [("name", 5), ("age", 6)] ⟨[]⟩).2.Entries
        = [] ++ [entry] ∧
      entry.Stmt = "UPDATE t SET name = ?,age = ? WHERE id = ?" ∧
      entry.Args = [5, 6, 1] := by
  obtain ⟨entry, h1, h2, h3, _⟩ :=
    UpdateRecord_entry sampleTable [("id", 1)] [("name", 5), ("age", 6)] ⟨[]⟩ (by decide)
  exact ⟨by decide, entry, h1, by rw [h2]; decide, by rw [h3]; decide⟩

/-! ## The placeholder list -/

theorem emptyInputsSpec_succ_succ (n : Nat) :
    emptyInputsSpec (n + 2) = '?' :: ',' :: emptyInputsSpec (n + 1) := by
  simp [emptyInputsSpec]

theorem stringsJoin_replicate_data (n : Nat) :
    (stringsJoin (List.replicate n "?") ",").data = emptyInputsSpec n := by
  cases n with
  | zero => rfl
  | succ n =>
    induction n with
    | zero => rfl
    | succ n ih =>
      rw [List.replicate_succ, List.replicate_succ, stringsJoin_cons_cons,
        emptyInputsSpec_succ_succ, ← ih, List.replicate_succ]
      simp [String.data_append]

theorem emptyInputsSpec_length (n : Nat) : (emptyInputsSpec (n + 1)).length = 2 * n + 1 := by
  induction n with
  | zero => rfl
  | succ n ih => rw [emptyInputsSpec_succ_succ, List.length_cons, List.length_cons, ih]; omega

theorem emptyInputsSpec_getElem? (n i : Nat) (hi : i < (emptyInputsSpec n).length) :
    (emptyInputsSpec n)[i]? = some (if i % 2 = 0 then '?' else ',') := by
  cases n with
  | zero => simp [emptyInputsSpec] at hi
  | succ n =>
    induction n generalizing i with
    | zero =>
      have : i = 0 := by simpa [emptyInputsSpec] using hi
      subst this
      rfl
    | succ n ih =>
      rw [emptyInputsSpec_succ_succ] at hi ⊢
      match i, hi with
      | 0, _ => rfl
      | 1, _ => simp
      | j + 2, hj =>
        simp only [List.length_cons] at hj
        rw [List.getElem?_cons_succ, List.getElem?_cons_succ, ih j (by omega)]
        have : (j + 2) % 2 = j % 2 := by omega
        rw [this]

/-- C14: `GenerateEmptyInputs(count)` is the placeholder list for `count`
parameters, as the specification words it.  For `count <= 0` it is the empty
string.  For `count >= 1` it has length `2*count - 1`, with a question mark at
every even index and a comma at every odd index, which makes `count` question
marks separated by `count - 1` commas. -/
theorem GenerateEmptyInputs_text (count : Int) :
    (GenerateEmptyInputs count).data = emptyInputsSpec count.toNat ∧
    (count ≤ 0 → GenerateEmptyInputs count = "") ∧
    (1 ≤ count →
      ((GenerateEmptyInputs count).length : Int) = 2 * count - 1 ∧
      (∀ i : Nat, i < (GenerateEmptyInputs count).length →
        (GenerateEmptyInputs count).data[i]? = some (if i % 2 = 0 then '?' else ',')) ∧
      ((GenerateEmptyInputs count).data.count '?' : Int) = count ∧
      ((GenerateEmptyInputs count).data.count ',' : Int) = count - 1) := by
  have hdata : (GenerateEmptyInputs count).data = emptyInputsSpec count.toNat := by
    rw [GenerateEmptyInputs_eq, stringsJoin_replicate_data]
  refine ⟨hdata, ?_, ?_⟩
  · intro h
    have : count.toNat = 0 := by omega
    rw [GenerateEmptyInputs_eq, this]
    rfl
  · intro h
    obtain ⟨n, hn⟩ : ∃ n : Nat, count.toNat = n + 1 := ⟨count.toNat - 1, by omega⟩
    have hlen : (GenerateEmptyInputs count).length = 2 * n + 1 := by
      rw [String.length, hdata, hn, emptyInputsSpec_length]
    refine ⟨by rw [hlen]; omega, ?_, ?_, ?_⟩
    · intro i hi
      rw [hdata]
      apply emptyInputsSpec_getElem?
      rw [← hdata]
      exact hi
    · rw [GenerateEmptyInputs_eq, stringsJoin_placeholders_count]
      omega
    · rw [GenerateEmptyInputs_eq, hn, List.replicate_succ]
      simp only [stringsJoin]
      rw [stringsJoin_count_aux]
      have h1 : List.count ',' ("?".data) = 0 := by decide
      have h2 : List.count ',' (",".data) = 1 := by decide
      have h3 : (List.map (fun s => List.count ',' s.data) (List.replicate n "?")).sum = 0 := by
        apply sum_count_eq_zero
        intro s hs
        rw [List.eq_of_mem_replicate hs]
        decide
      rw [h1, h2, h3]
      simp only [List.length_replicate]
      omega

/-- Witness of C14: three parameters, and a negative count. -/
theorem GenerateEmptyInputs_text_witness :
    (1 : Int) ≤ 3 ∧ (-2 : Int) ≤ 0 ∧
    GenerateEmptyInputs 3 = "?,?,?" ∧
    ((GenerateEmptyInputs 3).length : Int) = 2 * 3 - 1 ∧
    GenerateEmptyInputs (-2) = "" :=
  ⟨by decide, by decide, by decide,
    ((GenerateEmptyInputs_text 3).2.2 (by decide)).1,
    (GenerateEmptyInputs_text (-2)).2.1 (by decide)⟩

/-! ## `CheckData` leaves the caller's record alone -/

theorem getD_append_length {α : Type} (l : List α) (a : α) (rest : List α) (d : α) :
    (l ++ a :: rest).getD l.length d = a := by
  induction l with
  | nil => rfl
  | cons b l ih => simpa using ih

theorem CheckDataMemory.load_call (heap : List (GoMap V)) (values : GoMap V) :
    (CheckDataMemory.call heap values).load (CheckDataMemory.call heap values).values
      = values := by
  simp [CheckDataMemory.call, CheckDataMemory.load, List.getD_eq_getElem?_getD]

/-- The memory `CheckData` leaves behind, in closed form. -/
theorem CheckData.exec_call (metaData : TableMetadata V) (heap : List (GoMap V))
    (values : GoMap V) :
    CheckData.exec metaData (CheckDataMemory.call heap values)
      = ((CheckData values metaData).1,
          ⟨heap ++ [values] ++ [FilterData values metaData], heap.length,
            some (heap.length + 1),
            if (CheckData values metaData).1 = none then MapVar.data
            else MapVar.callerValues⟩) := by
  have hload := CheckDataMemory.load_call heap values
  have hdata : (⟨(CheckDataMemory.call heap values).heap ++ [FilterData values metaData],
      (CheckDataMemory.call heap values).callerValues,
      some (CheckDataMemory.call heap values).heap.length,
      (CheckDataMemory.call heap values).values⟩ : CheckDataMemory V).load MapVar.data
        = FilterData values metaData := by
    simp [CheckDataMemory.load, List.getD_eq_getElem?_getD]
  unfold CheckData.exec
  simp only [hload, hdata]
  unfold CheckData
  simp only [CheckDataMemory.call, List.length_append, List.length_singleton]
  split
  · simp
  · split <;> simp

/-- C15: `CheckData` never modifies the caller's record.  Run on the memory, with
the caller's variable referring to the map `values` among any other map objects,
it returns the error of `CheckData` and leaves the caller's variable at the same
address, every map object that existed before as it was, and so the caller's map
with the keys and values it had, undeclared keys included.  The one new object is
the filtered record, and the closing assignment only moves the callee's pointer
parameter to `data`. -/
theorem CheckData_keeps_caller_record (metaData : TableMetadata V)
    (heap : List (GoMap V)) (values : GoMap V) :
    (CheckData.exec metaData (CheckDataMemory.call heap values)).1
      = (CheckData values metaData).1 ∧
    (CheckData.exec metaData (CheckDataMemory.call heap values)).2.callerValues
      = (CheckDataMemory.call heap values).callerValues ∧
    (CheckData.exec metaData (CheckDataMemory.call heap values)).2.load MapVar.callerValues
      = values ∧
    (CheckData.exec metaData (CheckDataMemory.call heap values)).2.heap
      = (CheckDataMemory.call heap values).heap ++ [FilterData values metaData] ∧
    (∀ k : String,
      ((CheckData.exec metaData (CheckDataMemory.call heap values)).2.load
        MapVar.callerValues).get k = values.get k) ∧
    (CheckData values metaData).2 = values ∧
    (((CheckData.exec metaData (CheckDataMemory.call heap values)).1 = none ∧
        (CheckData.exec metaData (CheckDataMemory.call heap values)).2.values
          = MapVar.data) ∨
      ((CheckData.exec metaData (CheckDataMemory.call heap values)).1 ≠ none ∧
        (CheckData.exec metaData (CheckDataMemory.call heap values)).2.values
          = MapVar.callerValues)) := by
  have hload : (CheckData.exec metaData (CheckDataMemory.call heap values)).2.load
      MapVar.callerValues = values := by
    rw [CheckData.exec_call]
    simp only [CheckDataMemory.load, List.append_assoc, List.singleton_append]
    exact getD_append_length heap values _ _
  refine ⟨?_, ?_, hload, ?_, ?_, CheckData_snd values metaData, ?_⟩
  · rw [CheckData.exec_call]
  · rw [CheckData.exec_call]; rfl
  · rw [CheckData.exec_call]; rfl
  · intro k; rw [hload]
  · rw [CheckData.exec_call]
    cases (CheckData values metaData).1 with
    | none => exact Or.inl ⟨rfl, rfl⟩
    | some err => exact Or.inr ⟨by simp, by simp⟩

/-- The loop of `generateEmptyEquality` on the backing array, position by position. -/
theorem generateEmptyEquality_loop_getElem? (fuel index : Nat) (fields : List String)
    (j : Nat) :
    (generateEmptyEquality.loop fuel index fields)[j]?
      = if index ≤ j ∧ j < index + fuel then fields[j]?.map (fun value => value ++ " = ?")
        else fields[j]? := by
  induction fuel generalizing index fields with
  | zero =>
    have : ¬ (index ≤ j ∧ j < index + 0) := by omega
    rw [if_neg this]
    rfl
  | succ fuel ih =>
    unfold generateEmptyEquality.loop
    cases h : fields[index]? with
    | none =>
      simp only
      have hlen : fields.length ≤ index := by
        rcases Nat.lt_or_ge index fields.length with hlt | hge
        · rw [List.getElem?_eq_getElem hlt] at h; cases h
        · exact hge
      split
      · rename_i hj
        have : fields[j]? = none := List.getElem?_eq_none (by omega)
        simp [this]
      · rfl
    | some value =>
      simp only
      rw [ih]
      have hlt : index < fields.length := by
        rcases Nat.lt_or_ge index fields.length with hlt | hge
        · exact hlt
        · rw [List.getElem?_eq_none hge] at h; cases h
      by_cases hj : j = index
      · subst hj
        have h1 : ¬ (j + 1 ≤ j ∧ j < j + 1 + fuel) := by omega
        have h2 : j ≤ j ∧ j < j + (fuel + 1) := by omega
        rw [if_neg h1, if_pos h2, h]
        simp [hlt]
      · have hne : ¬ index = j := fun e => hj e.symm
        rw [List.getElem?_set_ne hne]
        by_cases hc : index + 1 ≤ j ∧ j < index + 1 + fuel
        · have hc' : index ≤ j ∧ j < index + (fuel + 1) := by omega
          rw [if_pos hc, if_pos hc']
        · have hc' : ¬ (index ≤ j ∧ j < index + (fuel + 1)) := by omega
          rw [if_neg hc, if_neg hc']

theorem generateEmptyEquality_inPlace_eq (fields : List String) :
    generateEmptyEquality.inPlace fields = generateEmptyEquality fields := by
  apply List.ext_getElem?
  intro j
  rw [generateEmptyEquality.inPlace, generateEmptyEquality_loop_getElem?, generateEmptyEquality,
    List.getElem?_map]
  split
  · rfl
  · rename_i hj
    have : fields[j]? = none := List.getElem?_eq_none (by omega)
    simp [this]

/-- C16: `GenerateWhereConditions` overwrites its argument in place.  The slice it
leaves to the caller is what the loop on the backing array leaves: it has the
length it had, and every element is its old value followed by the equality
placeholder.  A second call on that slice returns conditions in which every field
is followed by the placeholder twice. -/
theorem GenerateWhereConditions_in_place (fields : List String) :
    (GenerateWhereConditions fields).2 = generateEmptyEquality.inPlace fields ∧
    (GenerateWhereConditions fields).2.length = fields.length ∧
    (∀ i : Nat, (GenerateWhereConditions fields).2[i]?
      = fields[i]?.map (fun value => value ++ " = ?")) ∧
    (GenerateWhereConditions (GenerateWhereConditions fields).2).1
      = stringsJoin (fields.map (fun value => value ++ " = ? = ?")) " AND " ∧
    (GenerateWhereConditions (GenerateWhereConditions fields).2).1
      = whereConditionsSpec (fields.map (fun value => value ++ " = ?")) ∧
    (GenerateWhereConditions (GenerateWhereConditions fields).2).2.length
      = fields.length := by
  refine ⟨(generateEmptyEquality_inPlace_eq fields).symm, ?_, ?_, ?_, ?_, ?_⟩
  · simp [GenerateWhereConditions, generateEmptyEquality]
  · intro i
    simp [GenerateWhereConditions, generateEmptyEquality]
  · have h2 : " = ?" ++ " = ?" = " = ? = ?" := by decide
    have hf : ∀ value : String, value ++ " = ?" ++ " = ?" = value ++ " = ? = ?" :=
      fun value => by rw [String.append_assoc, h2]
    simp only [GenerateWhereConditions, generateEmptyEquality, List.map_map, Function.comp_def,
      hf]
  · rw [whereConditionsSpec_eq]
    rfl
  · simp [GenerateWhereConditions, generateEmptyEquality]

/-! ## `AddId` -/

/-- C17 (counterexample): the nil map is a record without the key `id`, and the
sample generator succeeds; yet `AddId` on it does not return with `id` set, for a
nil `idName` and for a string alike: the assignment to the nil map panics. -/
theorem AddId_nil_map_panics :
    sampleGenerator.GenerateV4 = (4, none) ∧
    AddId (RecordPtr.nilMap : RecordPtr Nat) IdName.nil sampleGenerator = Run.panics ∧
    AddId (RecordPtr.nilMap : RecordPtr Nat) (IdName.str "abc") sampleGenerator
      = Run.panics ∧
    ∀ result : Option String × RecordPtr Nat,
      AddId RecordPtr.nilMap IdName.nil sampleGenerator ≠ Run.returns result ∧
      AddId RecordPtr.nilMap (IdName.str "abc") sampleGenerator ≠ Run.returns result := by
  refine ⟨rfl, rfl, rfl, fun result => ⟨?_, ?_⟩⟩ <;> intro h <;> cases h

/-- C17 (amended): on a record that is not the nil map, `AddId` never overwrites
an existing identifier and touches no other key.  When the key `id` is set, a call
that returns leaves the record as it was.  When it is not set and generation
succeeds, the record afterwards is the record with `id` set to the generated
identifier (`GenerateV4` for a nil `idName`, `GenerateV5(idName)` for a string),
which changes the value of no other key and keeps the other keys in place.  When
`GenerateV4` fails, its error is returned and what `values` points to is as it
was, whatever it is.  And whatever `values` is, a call that returns leaves it as
it was or sets the key `id`, not set before, of the map it points to. -/
theorem AddId_frame (record : GoMap V) (generator : Generator V) :
    (∀ (idName : IdName) (err : Option String) (values' : RecordPtr V),
      (record.get "id").isSome →
      AddId (RecordPtr.map record) idName generator = Run.returns (err, values') →
      values' = RecordPtr.map record) ∧
    (∀ id : V, record.get "id" = none → generator.GenerateV4 = (id, none) →
      AddId (RecordPtr.map record) IdName.nil generator
        = Run.returns (none, RecordPtr.map (record.set "id" id))) ∧
    (∀ name : String, record.get "id" = none →
      AddId (RecordPtr.map record) (IdName.str name) generator
        = Run.returns (none, RecordPtr.map (record.set "id" (generator.GenerateV5 name)))) ∧
    (∀ id : V, record.get "id" = none →
      (record.set "id" id).get "id" = some id ∧
      (∀ k : String, k ≠ "id" → (record.set "id" id).get k = record.get k) ∧
      (record.set "id" id).keys = record.keys ++ ["id"]) ∧
    (∀ (values : RecordPtr V) (id : V) (err : String),
      generator.GenerateV4 = (id, some err) →
      AddId values IdName.nil generator = Run.returns (some err, values)) ∧
    (∀ (values : RecordPtr V) (idName : IdName) (err : Option String)
        (values' : RecordPtr V),
      AddId values idName generator = Run.returns (err, values') →
      values' = values ∨
      ∃ (old : GoMap V) (id : V), values = RecordPtr.map old ∧ old.get "id" = none ∧
        values' = RecordPtr.map (old.set "id" id)) := by
  have hstore : ∀ (values : RecordPtr V) (id : V) (err : Option String)
      (values' : RecordPtr V), AddId.store values id = Run.returns (err, values') →
      values' = values ∨
      ∃ (old : GoMap V) (id : V), values = RecordPtr.map old ∧ old.get "id" = none ∧
        values' = RecordPtr.map (old.set "id" id) := by
    intro values id err values' hret
    cases values with
    | nilPointer => simp [AddId.store] at hret
    | nilMap => simp [AddId.store] at hret
    | map old =>
      cases hget : old.get "id" with
      | some v =>
        simp only [AddId.store, hget, Run.returns.injEq, Prod.mk.injEq] at hret
        exact Or.inl hret.2.symm
      | none =>
        simp only [AddId.store, hget, Run.returns.injEq, Prod.mk.injEq] at hret
        exact Or.inr ⟨old, id, rfl, hget, hret.2.symm⟩
  have hall : ∀ (values : RecordPtr V) (idName : IdName) (err : Option String)
      (values' : RecordPtr V), AddId values idName generator = Run.returns (err, values') →
      values' = values ∨
      ∃ (old : GoMap V) (id : V), values = RecordPtr.map old ∧ old.get "id" = none ∧
        values' = RecordPtr.map (old.set "id" id) := by
    intro values idName err values' hret
    cases idName with
    | nil =>
      rcases hg : generator.GenerateV4 with ⟨id, e⟩
      cases e with
      | none =>
        simp only [AddId, hg] at hret
        exact hstore values id err values' hret
      | some e =>
        simp only [AddId, hg, Run.returns.injEq, Prod.mk.injEq] at hret
        exact Or.inl hret.2.symm
    | str name =>
      simp only [AddId] at hret
      exact hstore values _ err values' hret
    | other => simp [AddId] at hret
  refine ⟨?_, ?_, ?_, ?_, ?_, hall⟩
  · intro idName err values' hset hret
    rcases hall _ _ _ _ hret with h | ⟨old, id, hold, hnone, _⟩
    · exact h
    · simp only [RecordPtr.map.injEq] at hold
      subst hold
      simp [hnone] at hset
  · intro id hnone hg
    simp [AddId, AddId.store, hg, hnone]
  · intro name hnone
    simp [AddId, AddId.store, hnone]
  · intro id hnone
    refine ⟨by simp [GoMap.get_set], fun k hk => ?_, ?_⟩
    · rw [GoMap.get_set, if_neg (fun e => hk e.symm)]
    · have hk : "id" ∉ record.keys := by
        rw [GoMap.mem_keys_iff]; simp [hnone]
      rw [GoMap.keys_set, if_neg hk]
  · intro values id err hg
    simp [AddId, hg]

/-- Witness of C17: a record with `id` set, and one without. -/
theorem AddId_frame_witness :
    (GoMap.get [("id", 9), ("x", 1)] "id").isSome ∧
    AddId (RecordPtr.map [("id", 9), ("x", 1)]) IdName.nil sampleGenerator
      = Run.returns (none, RecordPtr.map [("id", 9), ("x", 1)]) ∧
    GoMap.get [("x", 1)] "id" = none ∧ sampleGenerator.GenerateV4 = (4, none) ∧
    AddId (RecordPtr.map [("x", 1)]) IdName.nil sampleGenerator
      = Run.returns (none, RecordPtr.map [("x", 1), ("id", 4)]) ∧
    AddId (RecordPtr.map [("x", 1)]) (IdName.str "abc") sampleGenerator
      = Run.returns (none, RecordPtr.map [("x", 1), ("id", 3)]) ∧
    sampleGeneratorFailing.GenerateV4 = (0, some "no entropy") ∧
    AddId (RecordPtr.map [("x", 1)]) IdName.nil sampleGeneratorFailing
      = Run.returns (some "no entropy", RecordPtr.map [("x", 1)]) :=
  ⟨by decide, by decide, by decide, rfl,
    (AddId_frame [("x", 1)] sampleGenerator).2.1 4 (by decide) rfl,
    (AddId_frame [("x", 1)] sampleGenerator).2.2.1 "abc" (by decide),
    rfl,
    (AddId_frame [("x", 1)] sampleGeneratorFailing).2.2.2.2.1 (RecordPtr.map [("x", 1)])
      0 "no entropy" rfl⟩

end CassandraQB
